import Mathlib

/-!
Verification of the att-client connection-management subsystem against its
specification. Each section shallowly embeds one part of the TypeScript
source (src/...) as executable Lean definitions and proves the spec's claims
about it. Machine arithmetic is modelled as Nat/Int with explicit reductions
where JavaScript semantics require them.
-/

namespace AttClient

/-! ## Password hashing (Client.hashPassword, src/unnamed/part_006 lines 1011-1022)

The client hashes a configured password with SHA-512 and renders the digest
as lowercase hex, unless the supplied value already matches the
case-insensitive regex stating 128 hex characters, in which case it is used
as-is. SHA-512 is embedded in full below (FIPS 180-4), operating on the
UTF-8 bytes of the password, exactly as node's createHash('sha512') does. -/

/-- 2 to the power 64, the word modulus of SHA-512. -/
def w64Mod : Nat := 18446744073709551616

/-- Reduce a Nat to a 64-bit word. -/
def w64 (n : Nat) : Nat := n % w64Mod

/-- 64-bit modular addition. -/
def add64 (a b : Nat) : Nat := (a + b) % w64Mod

/-- Rotate a 64-bit word right by n bits. -/
def rotr64 (n x : Nat) : Nat := w64 ((x >>> n) ||| (x <<< (64 - n)))

/-- Bitwise complement of a 64-bit word. -/
def not64 (x : Nat) : Nat := x ^^^ (w64Mod - 1)

/-- SHA-512 Ch function. -/
def chF (x y z : Nat) : Nat := (x &&& y) ^^^ (not64 x &&& z)

/-- SHA-512 Maj function. -/
def majF (x y z : Nat) : Nat := (x &&& y) ^^^ (x &&& z) ^^^ (y &&& z)

/-- SHA-512 big sigma 0. -/
def bsig0 (x : Nat) : Nat := rotr64 28 x ^^^ rotr64 34 x ^^^ rotr64 39 x

/-- SHA-512 big sigma 1. -/
def bsig1 (x : Nat) : Nat := rotr64 14 x ^^^ rotr64 18 x ^^^ rotr64 41 x

/-- SHA-512 small sigma 0. -/
def ssig0 (x : Nat) : Nat := rotr64 1 x ^^^ rotr64 8 x ^^^ (x >>> 7)

/-- SHA-512 small sigma 1. -/
def ssig1 (x : Nat) : Nat := rotr64 19 x ^^^ rotr64 61 x ^^^ (x >>> 6)

/-- The 80 SHA-512 round constants (fractional parts of the cube roots of
the first 80 primes). -/
def sha512K : Array Nat := #[
  4794697086780616226,  -- 0x428a2f98d728ae22
  8158064640168781261,  -- 0x7137449123ef65cd
  13096744586834688815,  -- 0xb5c0fbcfec4d3b2f
  16840607885511220156,  -- 0xe9b5dba58189dbbc
  4131703408338449720,  -- 0x3956c25bf348b538
  6480981068601479193,  -- 0x59f111f1b605d019
  10538285296894168987,  -- 0x923f82a4af194f9b
  12329834152419229976,  -- 0xab1c5ed5da6d8118
  15566598209576043074,  -- 0xd807aa98a3030242
  1334009975649890238,  -- 0x12835b0145706fbe
  2608012711638119052,  -- 0x243185be4ee4b28c
  6128411473006802146,  -- 0x550c7dc3d5ffb4e2
  8268148722764581231,  -- 0x72be5d74f27b896f
  9286055187155687089,  -- 0x80deb1fe3b1696b1
  11230858885718282805,  -- 0x9bdc06a725c71235
  13951009754708518548,  -- 0xc19bf174cf692694
  16472876342353939154,  -- 0xe49b69c19ef14ad2
  17275323862435702243,  -- 0xefbe4786384f25e3
  1135362057144423861,  -- 0x0fc19dc68b8cd5b5
  2597628984639134821,  -- 0x240ca1cc77ac9c65
  3308224258029322869,  -- 0x2de92c6f592b0275
  5365058923640841347,  -- 0x4a7484aa6ea6e483
  6679025012923562964,  -- 0x5cb0a9dcbd41fbd4
  8573033837759648693,  -- 0x76f988da831153b5
  10970295158949994411,  -- 0x983e5152ee66dfab
  12119686244451234320,  -- 0xa831c66d2db43210
  12683024718118986047,  -- 0xb00327c898fb213f
  13788192230050041572,  -- 0xbf597fc7beef0ee4
  14330467153632333762,  -- 0xc6e00bf33da88fc2
  15395433587784984357,  -- 0xd5a79147930aa725
  489312712824947311,  -- 0x06ca6351e003826f
  1452737877330783856,  -- 0x142929670a0e6e70
  2861767655752347644,  -- 0x27b70a8546d22ffc
  3322285676063803686,  -- 0x2e1b21385c26c926
  5560940570517711597,  -- 0x4d2c6dfc5ac42aed
  5996557281743188959,  -- 0x53380d139d95b3df
  7280758554555802590,  -- 0x650a73548baf63de
  8532644243296465576,  -- 0x766a0abb3c77b2a8
  9350256976987008742,  -- 0x81c2c92e47edaee6
  10552545826968843579,  -- 0x92722c851482353b
  11727347734174303076,  -- 0xa2bfe8a14cf10364
  12113106623233404929,  -- 0xa81a664bbc423001
  14000437183269869457,  -- 0xc24b8b70d0f89791
  14369950271660146224,  -- 0xc76c51a30654be30
  15101387698204529176,  -- 0xd192e819d6ef5218
  15463397548674623760,  -- 0xd69906245565a910
  17586052441742319658,  -- 0xf40e35855771202a
  1182934255886127544,  -- 0x106aa07032bbd1b8
  1847814050463011016,  -- 0x19a4c116b8d2d0c8
  2177327727835720531,  -- 0x1e376c085141ab53
  2830643537854262169,  -- 0x2748774cdf8eeb99
  3796741975233480872,  -- 0x34b0bcb5e19b48a8
  4115178125766777443,  -- 0x391c0cb3c5c95a63
  5681478168544905931,  -- 0x4ed8aa4ae3418acb
  6601373596472566643,  -- 0x5b9cca4f7763e373
  7507060721942968483,  -- 0x682e6ff3d6b2b8a3
  8399075790359081724,  -- 0x748f82ee5defb2fc
  8693463985226723168,  -- 0x78a5636f43172f60
  9568029438360202098,  -- 0x84c87814a1f0ab72
  10144078919501101548,  -- 0x8cc702081a6439ec
  10430055236837252648,  -- 0x90befffa23631e28
  11840083180663258601,  -- 0xa4506cebde82bde9
  13761210420658862357,  -- 0xbef9a3f7b2c67915
  14299343276471374635,  -- 0xc67178f2e372532b
  14566680578165727644,  -- 0xca273eceea26619c
  15097957966210449927,  -- 0xd186b8c721c0c207
  16922976911328602910,  -- 0xeada7dd6cde0eb1e
  17689382322260857208,  -- 0xf57d4f7fee6ed178
  500013540394364858,  -- 0x06f067aa72176fba
  748580250866718886,  -- 0x0a637dc5a2c898a6
  1242879168328830382,  -- 0x113f9804bef90dae
  1977374033974150939,  -- 0x1b710b35131c471b
  2944078676154940804,  -- 0x28db77f523047d84
  3659926193048069267,  -- 0x32caab7b40c72493
  4368137639120453308,  -- 0x3c9ebe0a15c9bebc
  4836135668995329356,  -- 0x431d67c49c100d4c
  5532061633213252278,  -- 0x4cc5d4becb3e42b6
  6448918945643986474,  -- 0x597f299cfc657e2a
  6902733635092675308,  -- 0x5fcb6fab3ad6faec
  7801388544844847127]  -- 0x6c44198c4a475817

/-- The eight 64-bit words of a SHA-512 state. -/
structure Hash8 where
  h0 : Nat
  h1 : Nat
  h2 : Nat
  h3 : Nat
  h4 : Nat
  h5 : Nat
  h6 : Nat
  h7 : Nat

/-- The SHA-512 initial hash value (fractional parts of the square roots of
the first 8 primes). -/
def sha512IV : Hash8 :=
  ⟨
   7640891576956012808,  -- 0x6a09e667f3bcc908
   13503953896175478587,  -- 0xbb67ae8584caa73b
   4354685564936845355,  -- 0x3c6ef372fe94f82b
   11912009170470909681,  -- 0xa54ff53a5f1d36f1
   5840696475078001361,  -- 0x510e527fade682d1
   11170449401992604703,  -- 0x9b05688c2b3e6c1f
   2270897969802886507,  -- 0x1f83d9abfb41bd6b
   6620516959819538809⟩  -- 0x5be0cd19137e2179

/-- Big-endian k-byte rendering of a Nat (most significant byte first). -/
def natToBEBytes : Nat → Nat → List Nat
  | 0, _ => []
  | k + 1, n => natToBEBytes k (n / 256) ++ [n % 256]

/-- Big-endian word from a list of bytes. -/
def beWord (bs : List Nat) : Nat := bs.foldl (fun a b => a * 256 + b) 0

/-- The first 16 words of a block's message schedule. -/
def blockWords (block : List Nat) : Array Nat :=
  (Array.range 16).map (fun i => beWord ((block.drop (8 * i)).take 8))

/-- Extend the message schedule by n further words. -/
def extendSched : Nat → Array Nat → Array Nat
  | 0, ws => ws
  | n + 1, ws =>
    let word := w64 (ssig1 (ws.getD (ws.size - 2) 0) + ws.getD (ws.size - 7) 0 +
      ssig0 (ws.getD (ws.size - 15) 0) + ws.getD (ws.size - 16) 0)
    extendSched n (ws.push word)

/-- One round of the SHA-512 compression function on the working variables. -/
def sha512Round (ws : Array Nat) (i : Nat) (v : Hash8) : Hash8 :=
  let t1 := w64 (v.h7 + bsig1 v.h4 + chF v.h4 v.h5 v.h6 + sha512K.getD i 0 + ws.getD i 0)
  let t2 := w64 (bsig0 v.h0 + majF v.h0 v.h1 v.h2)
  ⟨add64 t1 t2, v.h0, v.h1, v.h2, add64 v.h3 t1, v.h4, v.h5, v.h6⟩

/-- Process one 128-byte block. -/
def compressBlock (st : Hash8) (block : List Nat) : Hash8 :=
  let ws := extendSched 64 (blockWords block)
  let v := (List.range 80).foldl (fun v i => sha512Round ws i v) st
  ⟨add64 st.h0 v.h0, add64 st.h1 v.h1, add64 st.h2 v.h2, add64 st.h3 v.h3,
   add64 st.h4 v.h4, add64 st.h5 v.h5, add64 st.h6 v.h6, add64 st.h7 v.h7⟩

/-- SHA-512 padding: a 0x80 byte, zeros to 112 mod 128, then the bit length
as a 16-byte big-endian integer. -/
def padMessage (m : List Nat) : List Nat :=
  let l := m.length
  let zeros := (128 + 112 - ((l + 1) % 128)) % 128
  m ++ [128] ++ List.replicate zeros 0 ++ natToBEBytes 16 (8 * l)

/-- Split a byte list into 128-byte blocks. -/
def chunk128 (l : List Nat) : List (List Nat) :=
  if h : l.isEmpty then [] else l.take 128 :: chunk128 (l.drop 128)
termination_by l.length
decreasing_by
  simp only [List.isEmpty_iff] at h
  have hl : 0 < l.length := List.length_pos.mpr h
  simp only [List.length_drop]
  omega

/-- The SHA-512 digest of a byte list, as 64 bytes. -/
def sha512Bytes (m : List Nat) : List Nat :=
  let st := (chunk128 (padMessage m)).foldl compressBlock sha512IV
  natToBEBytes 8 st.h0 ++ natToBEBytes 8 st.h1 ++ natToBEBytes 8 st.h2 ++
  natToBEBytes 8 st.h3 ++ natToBEBytes 8 st.h4 ++ natToBEBytes 8 st.h5 ++
  natToBEBytes 8 st.h6 ++ natToBEBytes 8 st.h7

/-- The sixteen lowercase hex digits. -/
def hexDigits : List Char := "0123456789abcdef".data

/-- The hex digit for a value below 16. -/
def hexDigitChar (n : Nat) : Char := hexDigits.getD n '0'

/-- A byte as two lowercase hex characters, high nibble first. -/
def byteToHexChars (b : Nat) : List Char := [hexDigitChar (b / 16 % 16), hexDigitChar (b % 16)]

/-- A byte list as a lowercase hex character list, as digest('hex') renders it. -/
def bytesToHex : List Nat → List Char
  | [] => []
  | b :: bs => byteToHexChars b ++ bytesToHex bs

/-- The lowercase SHA-512 hex digest of a byte list. -/
def sha512hex (m : List Nat) : String := String.mk (bytesToHex (sha512Bytes m))

/-- Whether a character is matched by the character class of the regex
used by hashPassword, with its case-insensitive flag. -/
def isHexCharCI (c : Char) : Bool :=
  (('0' ≤ c) && (c ≤ '9')) || (('a' ≤ c) && (c ≤ 'f')) || (('A' ≤ c) && (c ≤ 'F'))

/-- The test performed by the regex in hashPassword: exactly 128
case-insensitive hex characters. -/
def matchesHexDigest128 (s : String) : Bool :=
  (s.data.length == 128) && s.data.all isHexCharCI

/-- The UTF-8 bytes of a string, as node's update(password) consumes them. -/
def strBytes (p : String) : List Nat := p.toUTF8.toList.map (fun b => b.toNat)

/-- Client.hashPassword (src/unnamed/part_006 lines 1011-1022): an input
already matching the 128-hex-character regex is returned as-is; any other
input is replaced by its lowercase SHA-512 hex digest. -/
def hashPassword (p : String) : String :=
  if matchesHexDigest128 p then p else sha512hex (strBytes p)

theorem length_natToBEBytes (k n : Nat) : (natToBEBytes k n).length = k := by
  induction k generalizing n with
  | zero => rfl
  | succ k ih => simp [natToBEBytes, ih]

theorem length_sha512Bytes (m : List Nat) : (sha512Bytes m).length = 64 := by
  simp [sha512Bytes, length_natToBEBytes]

theorem isHexCharCI_hexDigitChar {n : Nat} (h : n < 16) :
    isHexCharCI (hexDigitChar n) = true := by
  interval_cases n <;> rfl

theorem all_bytesToHex (bs : List Nat) : (bytesToHex bs).all isHexCharCI = true := by
  induction bs with
  | nil => rfl
  | cons b bs ih =>
    simp only [bytesToHex, List.all_append, Bool.and_eq_true]
    refine ⟨?_, ih⟩
    simp only [byteToHexChars, List.all_cons, List.all_nil, Bool.and_true, Bool.and_eq_true]
    exact ⟨isHexCharCI_hexDigitChar (Nat.mod_lt _ (by decide)),
      isHexCharCI_hexDigitChar (Nat.mod_lt _ (by decide))⟩

theorem length_bytesToHex (bs : List Nat) : (bytesToHex bs).length = 2 * bs.length := by
  induction bs with
  | nil => rfl
  | cons b bs ih =>
    simp only [bytesToHex, byteToHexChars, List.length_append, List.length_cons,
      List.length_nil, ih]
    omega

theorem data_mkString (l : List Char) : (String.mk l).data = l := rfl

theorem matchesHexDigest128_sha512hex (m : List Nat) :
    matchesHexDigest128 (sha512hex m) = true := by
  simp only [matchesHexDigest128, sha512hex, data_mkString, length_bytesToHex,
    length_sha512Bytes, all_bytesToHex, Bool.and_true]
  rfl

/-- C9: the password-hash function is idempotent: hash(hash(p)) = hash(p)
for every password string, because the hash of a non-matching input is a
lowercase SHA-512 hex digest, which itself matches the 128-hex-character
case-insensitive pattern and is therefore returned as-is, while a matching
input is returned unchanged in the first place. -/
theorem hashPassword_idempotent (p : String) :
    hashPassword (hashPassword p) = hashPassword p ∧
    (matchesHexDigest128 p = true → hashPassword p = p) ∧
    (matchesHexDigest128 p = false → hashPassword p = sha512hex (strBytes p)) := by
  refine ⟨?_, ?_, ?_⟩
  · by_cases h : matchesHexDigest128 p = true
    · simp [hashPassword, h]
    · simp only [hashPassword, h, if_false, Bool.not_eq_true] at *
      simp [hashPassword, h, matchesHexDigest128_sha512hex]
  · intro h; simp [hashPassword, h]
  · intro h; simp [hashPassword, h]

/-! ## Token refresh scheduling (Client.refreshTokens, src/unnamed/part_006 lines 795-810)

After storing the new token, refreshTokens cancels any prior refresh timer
and schedules the next refresh at Math.floor((1000 * exp - Date.now()) * 0.9)
milliseconds. Both operands are integers (milliseconds), so the JavaScript
double computation of the product and floor agrees with exact rational
arithmetic, embedded here as a floored integer division by 10. -/

/-- The scheduling delay computed by refreshTokens: the floor of 0.9 times
the milliseconds remaining until the decoded expiry. -/
def tokenRefreshDelay (expSec nowMs : Int) : Int :=
  Int.fdiv (9 * (1000 * expSec - nowMs)) 10

/-- Timer effects performed by refreshTokens. -/
inductive TimerAct
  | clearPrior
  | schedule (delay : Int)
deriving DecidableEq, Repr

/-- The timer actions of one successful refreshTokens call: clearTimeout on
the previous timer, then setTimeout at the computed delay. -/
def refreshTokensTimerActs (expSec nowMs : Int) : List TimerAct :=
  [TimerAct.clearPrior, TimerAct.schedule (tokenRefreshDelay expSec nowMs)]

theorem tokenRefreshDelay_lt (expSec nowMs : Int) (h : nowMs < 1000 * expSec) :
    nowMs + tokenRefreshDelay expSec nowMs < 1000 * expSec := by
  unfold tokenRefreshDelay
  rw [Int.fdiv_eq_ediv _ (by decide : (0 : Int) ≤ 10)]
  have hid := Int.ediv_add_emod (9 * (1000 * expSec - nowMs)) 10
  have hlt := Int.emod_lt_of_pos (9 * (1000 * expSec - nowMs)) (by decide : (0 : Int) < 10)
  have hge := Int.emod_nonneg (9 * (1000 * expSec - nowMs)) (by decide : (10 : Int) ≠ 0)
  omega

/-- C5 (amended): every successful token refresh first cancels the prior
timer and then schedules the next refresh at delay
floor(0.9 * (expiry * 1000 - now)); whenever the decoded expiry lies
strictly in the future (now < expiry * 1000), the scheduled refresh time
now + delay is strictly before expiry * 1000. (For an already-expired
token the code still schedules, at a non-positive delay that is not
strictly before expiry, which is what forces the amendment.) -/
theorem refreshTokens_schedule (expSec nowMs : Int) (h : nowMs < 1000 * expSec) :
    refreshTokensTimerActs expSec nowMs =
      [TimerAct.clearPrior, TimerAct.schedule (tokenRefreshDelay expSec nowMs)] ∧
    0 ≤ tokenRefreshDelay expSec nowMs ∧
    nowMs + tokenRefreshDelay expSec nowMs < 1000 * expSec := by
  refine ⟨rfl, ?_, tokenRefreshDelay_lt expSec nowMs h⟩
  unfold tokenRefreshDelay
  rw [Int.fdiv_eq_ediv _ (by decide : (0 : Int) ≤ 10)]
  have : (0 : Int) ≤ 9 * (1000 * expSec - nowMs) := by omega
  exact Int.ediv_nonneg this (by decide)

/-- C5 witness: at expiry 2 s and now 1000 ms the hypothesis holds and the
refresh lands at 1900 ms, strictly before 2000 ms. -/
theorem refreshTokens_schedule_witness :
    (1000 : Int) < 1000 * 2 ∧ (1000 : Int) + tokenRefreshDelay 2 1000 < 1000 * 2 :=
  ⟨by decide, (refreshTokens_schedule 2 1000 (by decide)).2.2⟩

/-- C5 counterexample: for a token whose expiry (1 s, i.e. 1000 ms) equals
the current time, the computed delay is 0 and the scheduled refresh time is
not strictly before expiry * 1000, so the unqualified invariant
refreshTime < expiry * 1000 claimed for every decoded token fails. -/
theorem refreshTokens_schedule_counterexample :
    tokenRefreshDelay 1 1000 = 0 ∧ ¬((1000 : Int) + tokenRefreshDelay 1 1000 < 1000 * 1) := by
  constructor
  · rfl
  · decide

/-! ## Dynamic group allow/deny lists (Client, src/unnamed/part_006)

The Client constructor (lines 596-664) sanitises the configuration: when
both includedGroups and excludedGroups are non-empty, excludedGroups is
replaced by the default empty list; the allowlist and denylist Sets are then
built from the effective lists. allowGroup (lines 954-972) and denyGroup
(lines 1001-1006) are the only public mutations. -/

/-- The allowlist and denylist Sets of a Client. -/
structure GroupLists where
  allowlist : Finset ℕ
  denylist : Finset ℕ
deriving DecidableEq

/-- The effective excludedGroups after constructor sanitisation (lines
633-637): kept only when includedGroups is absent or empty, otherwise
replaced by the default empty list. -/
def effectiveExcludedGroups (included excluded : List Nat) : List Nat :=
  if included.isEmpty then excluded else []

/-- The lists as initialised by the constructor (lines 663-664). -/
def initialGroupLists (included excluded : List Nat) : GroupLists :=
  ⟨included.toFinset, (effectiveExcludedGroups included excluded).toFinset⟩

/-- Client.allowGroup list mutation (lines 968-971): delete the id from the
denylist; add it to the allowlist iff the allowlist is non-empty or force is
set; then trigger addGroup (the returned flag). -/
def allowGroupLists (ls : GroupLists) (groupId : Nat) (force : Bool) : GroupLists × Bool :=
  let deny1 := ls.denylist.erase groupId
  let allow1 :=
    if 0 < ls.allowlist.card ∨ force = true then insert groupId ls.allowlist else ls.allowlist
  (⟨allow1, deny1⟩, true)

/-- Client.denyGroup list mutation (lines 1002-1003): add the id to the
denylist and delete it from the allowlist (then removeGroup runs). -/
def denyGroupLists (ls : GroupLists) (groupId : Nat) : GroupLists :=
  ⟨ls.allowlist.erase groupId, insert groupId ls.denylist⟩

/-- A public mutation of the lists. -/
inductive ListOp
  | allow (groupId : Nat) (force : Bool)
  | deny (groupId : Nat)

/-- Apply one public mutation. -/
def applyListOp (ls : GroupLists) : ListOp → GroupLists
  | ListOp.allow g f => (allowGroupLists ls g f).1
  | ListOp.deny g => denyGroupLists ls g

/-- Apply a sequence of public mutations. -/
def runListOps (ls : GroupLists) (ops : List ListOp) : GroupLists :=
  ops.foldl applyListOp ls

theorem applyListOp_disjoint (ls : GroupLists) (op : ListOp)
    (h : Disjoint ls.allowlist ls.denylist) :
    Disjoint (applyListOp ls op).allowlist (applyListOp ls op).denylist := by
  rw [Finset.disjoint_left] at h ⊢
  cases op with
  | allow g f =>
    intro x hx hx'
    simp only [applyListOp, allowGroupLists] at hx hx'
    simp only [Finset.mem_erase] at hx'
    by_cases hc : 0 < ls.allowlist.card ∨ f = true
    · simp only [if_pos hc, Finset.mem_insert] at hx
      rcases hx with rfl | hx
      · exact hx'.1 rfl
      · exact h hx hx'.2
    · simp only [if_neg hc] at hx
      exact h hx hx'.2
  | deny g =>
    intro x hx hx'
    simp only [applyListOp, denyGroupLists] at hx hx'
    simp only [Finset.mem_erase] at hx
    simp only [Finset.mem_insert] at hx'
    rcases hx' with rfl | hx'
    · exact hx.1 rfl
    · exact h hx.2 hx'

theorem initialGroupLists_disjoint (included excluded : List Nat) :
    Disjoint (initialGroupLists included excluded).allowlist
      (initialGroupLists included excluded).denylist := by
  by_cases h : included.isEmpty = true
  · rw [List.isEmpty_iff] at h
    subst h
    simp [initialGroupLists]
  · unfold initialGroupLists effectiveExcludedGroups
    rw [if_neg h]
    simp

/-- C6: starting from the lists built from the includedGroups and
excludedGroups configuration, after any sequence of public allowGroup and
denyGroup calls the allowlist and denylist are disjoint. -/
theorem allow_deny_disjoint (included excluded : List Nat) (ops : List ListOp) :
    Disjoint (runListOps (initialGroupLists included excluded) ops).allowlist
      (runListOps (initialGroupLists included excluded) ops).denylist := by
  suffices hstep : ∀ (ops : List ListOp) (ls : GroupLists),
      Disjoint ls.allowlist ls.denylist →
      Disjoint (runListOps ls ops).allowlist (runListOps ls ops).denylist by
    exact hstep ops _ (initialGroupLists_disjoint included excluded)
  intro ops
  induction ops with
  | nil => intro ls h; exact h
  | cons op rest ih =>
    intro ls h
    exact ih (applyListOp ls op) (applyListOp_disjoint ls op h)

/-- C7: allowGroup(id, force) removes the id from the denylist; the id is
in the resulting allowlist iff the allowlist was non-empty or force was
true (so with an empty allowlist and force = false the allowlist stays
empty and the id is merely removed from the denylist); and addGroup is then
triggered for the id. -/
theorem allowGroup_semantics (ls : GroupLists) (g : Nat) (force : Bool) :
    g ∉ (allowGroupLists ls g force).1.denylist ∧
    (g ∈ (allowGroupLists ls g force).1.allowlist ↔ (0 < ls.allowlist.card ∨ force = true)) ∧
    (ls.allowlist = ∅ → force = false → (allowGroupLists ls g force).1.allowlist = ∅) ∧
    (allowGroupLists ls g force).2 = true := by
  refine ⟨?_, ?_, ?_, rfl⟩
  · show g ∉ ls.denylist.erase g
    simp
  · show g ∈ (if 0 < ls.allowlist.card ∨ force = true then insert g ls.allowlist
      else ls.allowlist) ↔ (0 < ls.allowlist.card ∨ force = true)
    by_cases hc : 0 < ls.allowlist.card ∨ force = true
    · rw [if_pos hc]
      simp only [Finset.mem_insert, true_or, true_iff]
      exact hc
    · rw [if_neg hc]
      constructor
      · intro hg
        exact absurd (Or.inl (Finset.card_pos.mpr ⟨g, hg⟩)) hc
      · intro hor
        exact absurd hor hc
  · intro hempty hforce
    have hc : ¬(0 < ls.allowlist.card ∨ force = true) := by
      simp [hempty, hforce]
    show (if 0 < ls.allowlist.card ∨ force = true then insert g ls.allowlist
      else ls.allowlist) = ∅
    rw [if_neg hc, hempty]

/-! ## Subscription Router (SubscriptionsManager, src/unnamed/part_004 lines 9-108)

The SubscriptionsManager keeps an insertion-ordered Map of instanceId ->
Subscriptions instance, a monotone nextInstanceId, and a routing Map
subscription-key -> instanceId. Instances are modelled by their
subscription tables (insertion-ordered key lists, matching the Record keys
of Subscriptions.subscriptions in src/src/Subscriptions/Subscriptions.ts);
JavaScript Maps have unique keys, so association lists where set appends a
fresh key and delete removes the key are a faithful model. -/

/-- Lookup in the routing map. -/
def lookupSub : List (String × Nat) → String → Option Nat
  | [], _ => none
  | (k, v) :: rest, s => if k = s then some v else lookupSub rest s

/-- Map.delete on the routing map. -/
def removeSub : List (String × Nat) → String → List (String × Nat)
  | [], _ => []
  | (k, v) :: rest, s => if k = s then removeSub rest s else (k, v) :: removeSub rest s

/-- Lookup in the instances map. -/
def lookupInst : List (Nat × List String) → Nat → Option (List String)
  | [], _ => none
  | (i, t) :: rest, j => if i = j then some t else lookupInst rest j

/-- Replace an existing instance's table (in-place object mutation). -/
def setInst : List (Nat × List String) → Nat → List String → List (Nat × List String)
  | [], _, _ => []
  | (i, t) :: rest, j, t' =>
    if i = j then (i, t') :: setInst rest j t' else (i, t) :: setInst rest j t'

/-- Map.delete on the instances map. -/
def removeInst : List (Nat × List String) → Nat → List (Nat × List String)
  | [], _ => []
  | (i, t) :: rest, j => if i = j then removeInst rest j else (i, t) :: removeInst rest j

/-- Subscriptions.subscribe effect on one instance's table
(src/src/Subscriptions/Subscriptions.ts lines 544-560): a duplicate key is
refused (error log, no change), otherwise the key is added. -/
def instSubscribe (table : List String) (sub : String) : List String :=
  if sub ∈ table then table else table ++ [sub]

/-- Subscriptions.unsubscribe effect on one instance's table (lines
565-578): a missing key is refused (error log, no change), otherwise the
key is removed. -/
def instUnsubscribe (table : List String) (sub : String) : List String :=
  if sub ∈ table then table.erase sub else table

/-- The state of a SubscriptionsManager. -/
structure ManagerState where
  instances : List (Nat × List String)
  nextInstanceId : Nat
  subscriptionsMap : List (String × Nat)
deriving DecidableEq

/-- The constructor's state (part_004 lines 15-20). -/
def initialManagerState : ManagerState := ⟨[], 0, []⟩

/-- The loop of getInstanceWithCapacity (lines 92-94): the first instance,
in insertion order, whose table size is strictly below the cap. -/
def findInstanceWithCapacity (cap : Nat) (instances : List (Nat × List String)) :
    Option (Nat × List String) :=
  instances.find? (fun p => p.2.length < cap)

/-- SubscriptionsManager.subscribe (lines 25-43) combined with
getInstanceWithCapacity (lines 89-107): an already-routed key is refused;
otherwise the first instance with capacity receives it, a new instance with
the next monotone id being created when none qualifies, and the routing map
records the key. -/
def managerSubscribe (cap : Nat) (s : ManagerState) (sub : String) : ManagerState :=
  if (lookupSub s.subscriptionsMap sub).isSome then s
  else
    match findInstanceWithCapacity cap s.instances with
    | some (i, t) =>
      { s with
        instances := setInst s.instances i (instSubscribe t sub),
        subscriptionsMap := s.subscriptionsMap ++ [(sub, i)] }
    | none =>
      { instances := s.instances ++ [(s.nextInstanceId, instSubscribe [] sub)],
        nextInstanceId := s.nextInstanceId + 1,
        subscriptionsMap := s.subscriptionsMap ++ [(sub, s.nextInstanceId)] }

/-- SubscriptionsManager.unsubscribe (lines 48-76): an unrouted key is
refused; otherwise the owning instance drops it, the routing entry is
deleted, and an instance whose table became empty is discarded. -/
def managerUnsubscribe (s : ManagerState) (sub : String) : ManagerState :=
  match lookupSub s.subscriptionsMap sub with
  | none => s
  | some i =>
    match lookupInst s.instances i with
    | none => s
    | some t =>
      let t' := instUnsubscribe t sub
      let instances1 := setInst s.instances i t'
      let map1 := removeSub s.subscriptionsMap sub
      if t'.length = 0 then
        { s with instances := removeInst instances1 i, subscriptionsMap := map1 }
      else
        { s with instances := instances1, subscriptionsMap := map1 }

/-- A public operation on the SubscriptionsManager. -/
inductive MOp
  | sub (key : String)
  | unsub (key : String)
deriving DecidableEq

/-- Apply one operation. -/
def managerStep (cap : Nat) (s : ManagerState) : MOp → ManagerState
  | MOp.sub k => managerSubscribe cap s k
  | MOp.unsub k => managerUnsubscribe s k

/-- The state reached from the constructor's state by a sequence of
operations. -/
def runManager (cap : Nat) (ops : List MOp) : ManagerState :=
  ops.foldl (managerStep cap) initialManagerState

theorem mem_setInst {l : List (Nat × List String)} {j : Nat} {t' : List String}
    {p : Nat × List String} (h : p ∈ setInst l j t') :
    (p.1 = j ∧ p.2 = t') ∨ p ∈ l := by
  induction l with
  | nil => simp [setInst] at h
  | cons q rest ih =>
    obtain ⟨i, t⟩ := q
    simp only [setInst] at h
    by_cases hij : i = j
    · rw [if_pos hij] at h
      rcases List.mem_cons.mp h with rfl | h
      · exact Or.inl ⟨hij, rfl⟩
      · rcases ih h with h' | h'
        · exact Or.inl h'
        · exact Or.inr (List.mem_cons_of_mem _ h')
    · rw [if_neg hij] at h
      rcases List.mem_cons.mp h with rfl | h
      · exact Or.inr (List.mem_cons_self _ _)
      · rcases ih h with h' | h'
        · exact Or.inl h'
        · exact Or.inr (List.mem_cons_of_mem _ h')

theorem mem_removeInst {l : List (Nat × List String)} {j : Nat}
    {p : Nat × List String} (h : p ∈ removeInst l j) : p ∈ l := by
  induction l with
  | nil => simp [removeInst] at h
  | cons q rest ih =>
    obtain ⟨i, t⟩ := q
    simp only [removeInst] at h
    by_cases hij : i = j
    · rw [if_pos hij] at h
      exact List.mem_cons_of_mem _ (ih h)
    · rw [if_neg hij] at h
      rcases List.mem_cons.mp h with rfl | h
      · exact List.mem_cons_self _ _
      · exact List.mem_cons_of_mem _ (ih h)

theorem lookupInst_mem {l : List (Nat × List String)} {j : Nat} {t : List String}
    (h : lookupInst l j = some t) : (j, t) ∈ l := by
  induction l with
  | nil => simp [lookupInst] at h
  | cons q rest ih =>
    obtain ⟨i, u⟩ := q
    simp only [lookupInst] at h
    by_cases hij : i = j
    · rw [if_pos hij] at h
      subst hij
      rw [Option.some_inj] at h
      subst h
      exact List.mem_cons_self _ _
    · rw [if_neg hij] at h
      exact List.mem_cons_of_mem _ (ih h)

theorem length_instSubscribe_le {t : List String} {sub : String} {cap : Nat}
    (h : t.length < cap) : (instSubscribe t sub).length ≤ cap := by
  unfold instSubscribe
  split
  · omega
  · simp only [List.length_append, List.length_cons, List.length_nil]
    omega

theorem length_instUnsubscribe_le (t : List String) (sub : String) :
    (instUnsubscribe t sub).length ≤ t.length := by
  unfold instUnsubscribe
  split
  · next hmem => rw [List.length_erase_of_mem hmem]; omega
  · omega

theorem findInstanceWithCapacity_lt {cap : Nat} {l : List (Nat × List String)}
    {i : Nat} {t : List String} (h : findInstanceWithCapacity cap l = some (i, t)) :
    t.length < cap ∧ (i, t) ∈ l := by
  constructor
  · have := List.find?_some h
    simpa using this
  · exact List.mem_of_find?_eq_some h

theorem lookupSub_append_self {m : List (String × Nat)} {sub : String} {i : Nat}
    (h : lookupSub m sub = none) : lookupSub (m ++ [(sub, i)]) sub = some i := by
  induction m with
  | nil => simp [lookupSub]
  | cons q rest ih =>
    obtain ⟨k, v⟩ := q
    simp only [lookupSub] at h ⊢
    by_cases hk : k = sub
    · rw [if_pos hk] at h
      exact absurd h (by simp)
    · rw [if_neg hk] at h ⊢
      exact ih h

/-- The size and freshness invariants of a manager state. -/
def managerInv (cap : Nat) (s : ManagerState) : Prop :=
  (∀ p ∈ s.instances, p.2.length ≤ cap) ∧ (∀ p ∈ s.instances, p.1 < s.nextInstanceId)

theorem managerSubscribe_inv {cap : Nat} (hcap : 1 ≤ cap) {s : ManagerState}
    (h : managerInv cap s) (sub : String) : managerInv cap (managerSubscribe cap s sub) := by
  obtain ⟨hsize, hfresh⟩ := h
  unfold managerSubscribe
  split
  · exact ⟨hsize, hfresh⟩
  · cases hf : findInstanceWithCapacity cap s.instances with
    | some p =>
      obtain ⟨i, t⟩ := p
      obtain ⟨hlt, hmem⟩ := findInstanceWithCapacity_lt hf
      constructor
      · intro q hq
        rcases mem_setInst hq with ⟨_, h2⟩ | hq'
        · rw [h2]
          exact length_instSubscribe_le hlt
        · exact hsize q hq'
      · intro q hq
        rcases mem_setInst hq with ⟨h1, _⟩ | hq'
        · rw [h1]
          exact hfresh (i, t) hmem
        · exact hfresh q hq'
    | none =>
      constructor
      · intro q hq
        rcases List.mem_append.mp hq with hq' | hq'
        · exact hsize q hq'
        · simp only [List.mem_singleton] at hq'
          rw [hq']
          simpa [instSubscribe] using hcap
      · intro q hq
        rcases List.mem_append.mp hq with hq' | hq'
        · exact Nat.lt_succ_of_lt (hfresh q hq')
        · simp only [List.mem_singleton] at hq'
          rw [hq']
          exact Nat.lt_succ_self _


theorem managerUnsubscribe_inv {cap : Nat} {s : ManagerState}
    (h : managerInv cap s) (sub : String) : managerInv cap (managerUnsubscribe s sub) := by
  obtain ⟨hsize, hfresh⟩ := h
  unfold managerUnsubscribe
  split
  · exact ⟨hsize, hfresh⟩
  · next i hl =>
    split
    · exact ⟨hsize, hfresh⟩
    · next t hli =>
      have hmem := lookupInst_mem hli
      have hnew : ∀ q ∈ setInst s.instances i (instUnsubscribe t sub),
          q.2.length ≤ cap ∧ q.1 < s.nextInstanceId := by
        intro q hq
        rcases mem_setInst hq with ⟨h1, h2⟩ | hq'
        · constructor
          · rw [h2]
            exact le_trans (length_instUnsubscribe_le t sub) (hsize (i, t) hmem)
          · rw [h1]
            exact hfresh (i, t) hmem
        · exact ⟨hsize q hq', hfresh q hq'⟩
      dsimp only
      split
      · constructor
        · intro q hq
          exact (hnew q (mem_removeInst hq)).1
        · intro q hq
          exact (hnew q (mem_removeInst hq)).2
      · constructor
        · intro q hq
          exact (hnew q hq).1
        · intro q hq
          exact (hnew q hq).2

theorem runManager_inv (cap : Nat) (hcap : 1 ≤ cap) (ops : List MOp) :
    managerInv cap (runManager cap ops) := by
  suffices hgen : ∀ (ops : List MOp) (s : ManagerState),
      managerInv cap s → managerInv cap (ops.foldl (managerStep cap) s) by
    exact hgen ops initialManagerState ⟨by simp [initialManagerState], by simp [initialManagerState]⟩
  intro ops
  induction ops with
  | nil => intro s h; exact h
  | cons op rest ih =>
    intro s h
    cases op with
    | sub k => exact ih _ (managerSubscribe_inv hcap h k)
    | unsub k => exact ih _ (managerUnsubscribe_inv h k)

/-- C1 (amended): provided maxSubscriptionsPerWebSocket is at least 1, in
every state of the SubscriptionsManager reachable by subscribe/unsubscribe
operations every instance's subscription table has size at most the cap,
every instance id is below the monotone nextInstanceId, and subscribing a
not-yet-routed key routes it to the first instance whose table size is
strictly below the cap, creating a new instance under the fresh id
nextInstanceId (distinct from every existing id) when none qualifies. -/
theorem subscriptionsManager_invariant (cap : Nat) (hcap : 1 ≤ cap) (ops : List MOp) :
    (∀ p ∈ (runManager cap ops).instances, p.2.length ≤ cap) ∧
    (∀ p ∈ (runManager cap ops).instances, p.1 < (runManager cap ops).nextInstanceId) ∧
    (∀ sub, lookupSub (runManager cap ops).subscriptionsMap sub = none →
      (∀ i t, findInstanceWithCapacity cap (runManager cap ops).instances = some (i, t) →
        lookupSub (managerSubscribe cap (runManager cap ops) sub).subscriptionsMap sub
          = some i) ∧
      (findInstanceWithCapacity cap (runManager cap ops).instances = none →
        lookupSub (managerSubscribe cap (runManager cap ops) sub).subscriptionsMap sub
            = some (runManager cap ops).nextInstanceId ∧
          ((runManager cap ops).nextInstanceId, [sub])
            ∈ (managerSubscribe cap (runManager cap ops) sub).instances ∧
          ∀ p ∈ (runManager cap ops).instances, p.1 ≠ (runManager cap ops).nextInstanceId)) := by
  obtain ⟨hsize, hfresh⟩ := runManager_inv cap hcap ops
  refine ⟨hsize, hfresh, ?_⟩
  intro sub hnone
  constructor
  · intro i t hfind
    unfold managerSubscribe
    rw [hnone]
    simp only [Option.isSome_none, Bool.false_eq_true, if_false, hfind]
    exact lookupSub_append_self hnone
  · intro hfind
    unfold managerSubscribe
    rw [hnone]
    simp only [Option.isSome_none, Bool.false_eq_true, if_false, hfind]
    refine ⟨lookupSub_append_self hnone, ?_, ?_⟩
    · simp [instSubscribe]
    · intro p hp
      exact Nat.ne_of_lt (hfresh p hp)

/-- C1 witness: with cap 1 and operations subscribing two keys, instance 0
holds exactly the first key, within the cap. -/
theorem subscriptionsManager_invariant_witness :
    ((0, ["a"]) : Nat × List String).2.length ≤ 1 ∧ (1 : Nat) ≤ 1 :=
  ⟨(subscriptionsManager_invariant 1 (by decide) [MOp.sub "a", MOp.sub "b"]).1
    (0, ["a"]) (by decide), by decide⟩

/-- C1 counterexample: with maxSubscriptionsPerWebSocket configured as 0,
one subscribe reaches a state whose single instance holds one subscription,
so the unqualified bound table-size at most the cap fails. -/
theorem subscriptionsManager_cap_zero_counterexample :
    ((0, ["me-group-create/0"]) ∈ (runManager 0 [MOp.sub "me-group-create/0"]).instances) ∧
    ¬(((0, ["me-group-create/0"]) : Nat × List String).2.length ≤ 0) := by
  constructor
  · decide
  · decide

/-! ## Account-Socket Instance: close handling, migration and recovery
(Subscriptions, src/src/Subscriptions/Subscriptions.ts)

The asynchronous procedures of the Subscriptions class are embedded as
functions from an explicit state (current socket, halted gate, migrationId)
and an oracle for the outcomes of external effects (the GET /ws/migrate
RPC, the POST /ws/migrate presentation) to a final state and a trace of the
observable actions the code performs, in program order. Message handlers of
one instance are serialised, as the spec's concurrency model assumes.
Timer re-arming and log lines other than the abnormal-close error are not
traced. -/

/-- Observable actions of the Subscriptions procedures. -/
inductive WsAct
  | getToken
  | haltGate
  | clearHalted
  | openSocket (sid : Nat)
  | postToken (sid : Nat)
  | clearPing
  | removeListeners (sid : Nat)
  | closeSocket (sid : Nat) (code : Nat)
  | invokeRecovery
  | scheduleMigrationRetry
  | retryRecovery
  | resubscribe (key : String)
  | awaitHalted
  | wsSend (msgId : Nat)
  | waitDelay (ms : Nat)
  | logErr
deriving DecidableEq, Repr

/-- The migration-relevant state of one Subscriptions instance: its socket
(by id), whether the halted gate is closed (a pending halted Promise
exists), and the migrationId (which getMigrationId returns before its
postfix increment, so the assignment migrationId = getMigrationId() leaves
the stored field unchanged). -/
structure MigS where
  ws : Option Nat
  halted : Bool
  migrationId : Nat
deriving DecidableEq, Repr

/-- handleClose (lines 103-120): drop the handlers and the ping timer; for
any close code other than 3000 and 3001 log the abnormal close and invoke
recoverWebSocket. -/
def handleCloseActs (sid code : Nat) : List WsAct :=
  [WsAct.removeListeners sid, WsAct.clearPing] ++
    (if code ≠ 3000 ∧ code ≠ 3001 then [WsAct.logErr, WsAct.invokeRecovery] else [])

/-- Subscriptions.init (lines 40-59): close the halted gate when it is
open, create the WebSocket, then clear the gate. -/
def initModel (st : MigS) (newSid : Nat) : MigS × List WsAct :=
  (⟨some newSid, false, st.migrationId⟩,
    (if st.halted then [] else [WsAct.haltGate]) ++ [WsAct.openSocket newSid, WsAct.clearHalted])

/-- One round of Subscriptions.recoverWebSocket (lines 369-451): close the
halted gate when open, drop the ping timer and the old socket's listeners,
open a fresh socket, clear the gate so resubscribe RPCs may proceed, then
resubscribe every snapshotted key; when the resubscription round fails or
times out, close the gate again and schedule a retry of recovery. -/
def recoverRoundModel (st : MigS) (newSid : Nat) (resubs : List String) (resubOk : Bool) :
    MigS × List WsAct :=
  let pending := (if st.halted then [] else [WsAct.haltGate]) ++ [WsAct.clearPing] ++
    (match st.ws with
     | some s => [WsAct.removeListeners s]
     | none => []) ++
    [WsAct.openSocket newSid, WsAct.clearHalted] ++ resubs.map WsAct.resubscribe
  if resubOk then (⟨some newSid, false, st.migrationId⟩, pending)
  else (⟨some newSid, true, st.migrationId⟩, pending ++ [WsAct.logErr, WsAct.retryRecovery])

/-- Subscriptions.migrate (lines 227-312). The oracle tokenOk gives the
outcome of the GET /ws/migrate RPC and postOk the outcome of presenting
the token with POST /ws/migrate on the new socket (newSid). On a missing
socket the code re-runs init; on a failed GET it schedules retryMigration;
otherwise it closes the halted gate, opens the new socket and presents the
token: on failure it drops the new socket's timers and listeners, closes it
with code 3001, restores the previous socket and invokes recoverWebSocket
without clearing the gate (lines 280-297); on success it clears the gate,
waits the handover period and closes the old socket with code 3000. -/
def migrateModel (st : MigS) (tokenOk : Bool) (newSid : Nat) (postOk : Bool) :
    MigS × List WsAct :=
  match st.ws with
  | none => initModel st newSid
  | some oldSid =>
    if tokenOk = false then (st, [WsAct.getToken, WsAct.scheduleMigrationRetry])
    else
      if postOk then
        (⟨some newSid, false, st.migrationId⟩,
          [WsAct.getToken, WsAct.haltGate, WsAct.openSocket newSid, WsAct.postToken newSid,
           WsAct.clearHalted, WsAct.closeSocket oldSid 3000, WsAct.removeListeners oldSid])
      else
        (⟨some oldSid, true, st.migrationId⟩,
          [WsAct.getToken, WsAct.haltGate, WsAct.openSocket newSid, WsAct.postToken newSid,
           WsAct.clearPing, WsAct.removeListeners newSid, WsAct.closeSocket newSid 3001,
           WsAct.invokeRecovery])

/-- C2: for every close event observed on an instance's WebSocket, recovery
is invoked if and only if the close code is neither 3000 nor 3001. -/
theorem close_code_recovery_policy (sid code : Nat) :
    WsAct.invokeRecovery ∈ handleCloseActs sid code ↔ (code ≠ 3000 ∧ code ≠ 3001) := by
  unfold handleCloseActs
  by_cases h : code ≠ 3000 ∧ code ≠ 3001
  · rw [if_pos h]
    simp [h]
  · rw [if_neg h]
    simp [h]

theorem clearHalted_mem_recoverRound (st : MigS) (sid : Nat) (resubs : List String)
    (ok : Bool) : WsAct.clearHalted ∈ (recoverRoundModel st sid resubs ok).2 := by
  unfold recoverRoundModel
  cases ok <;> cases hws : st.ws <;> by_cases hh : st.halted = true <;> simp [hh]

/-- C3: when presenting the migration token on the new socket fails, the
instance closes the new socket with code 3001 (after dropping its timers
and listeners), restores the previous socket as current, invokes recovery
rather than a migration retry, and returns with the trace ending at the
recovery call; no clearHalted occurs in the migration, so the gate stays
closed, and a recovery round is what re-opens it (its trace always contains
clearHalted, right after opening the fresh socket). -/
theorem migrate_post_failure (st : MigS) (oldSid newSid : Nat) (hws : st.ws = some oldSid) :
    (migrateModel st true newSid false).1.ws = some oldSid ∧
    (migrateModel st true newSid false).1.halted = true ∧
    (migrateModel st true newSid false).2 =
      [WsAct.getToken, WsAct.haltGate, WsAct.openSocket newSid, WsAct.postToken newSid,
       WsAct.clearPing, WsAct.removeListeners newSid, WsAct.closeSocket newSid 3001,
       WsAct.invokeRecovery] ∧
    WsAct.scheduleMigrationRetry ∉ (migrateModel st true newSid false).2 ∧
    WsAct.clearHalted ∉ (migrateModel st true newSid false).2 ∧
    (∀ (st' : MigS) (sid : Nat) (resubs : List String) (resubOk : Bool),
      WsAct.clearHalted ∈ (recoverRoundModel st' sid resubs resubOk).2) := by
  have hred : migrateModel st true newSid false =
      (⟨some oldSid, true, st.migrationId⟩,
        [WsAct.getToken, WsAct.haltGate, WsAct.openSocket newSid, WsAct.postToken newSid,
         WsAct.clearPing, WsAct.removeListeners newSid, WsAct.closeSocket newSid 3001,
         WsAct.invokeRecovery]) := by
    unfold migrateModel
    rw [hws]
    rfl
  rw [hred]
  refine ⟨rfl, rfl, rfl, by simp, by simp, ?_⟩
  intro st' sid resubs resubOk
  exact clearHalted_mem_recoverRound st' sid resubs resubOk

/-- C3 witness: from a concrete state with socket 1 and an open gate, a
migration whose POST fails restores socket 1 and leaves the gate closed. -/
theorem migrate_post_failure_witness :
    (migrateModel ⟨some 1, false, 1⟩ true 2 false).1.ws = some 1 ∧
    (migrateModel ⟨some 1, false, 1⟩ true 2 false).1.halted = true :=
  ⟨(migrate_post_failure ⟨some 1, false, 1⟩ 1 2 rfl).1,
   (migrate_post_failure ⟨some 1, false, 1⟩ 1 2 rfl).2.1⟩

/-! ## Account-Socket Instance: send with retries (Subscriptions.send,
src/src/Subscriptions/Subscriptions.ts lines 470-539)

send awaits the halted gate unless the path is migrate, rejects when the
socket or access token is missing, allocates a fresh messageId per attempt,
sends the frame (a socket-level send error rejects), and on a correlated
response whose responseCode is not 200 retries after
webSocketRequestRetryDelay while attemptsLeft is positive, rejecting once
the budget is exhausted; the trailing catch logs any rejection and resolves
with undefined. Note the recursive retry awaits this.send, which includes
its own trailing catch, so an inner rejection is swallowed at the innermost
level. The oracle gives each attempt's send-error flag and responseCode. -/

/-- Outcome of the promise returned to send's caller. -/
inductive SendOutcome
  | resolvedMsg (code : Nat)
  | resolvedNone
  | rejectedErr
deriving DecidableEq, Repr

/-- Result of one send: the next messageId counter value, the outcome, and
the action trace. -/
structure SendRes where
  msgId : Nat
  outcome : SendOutcome
  trace : List WsAct
deriving DecidableEq, Repr

/-- Awaiting the halted gate happens unless the path is migrate (line 476). -/
def sendGate (path : String) : List WsAct :=
  if path = "migrate" then [] else [WsAct.awaitHalted]

/-- The trailing catch (lines 533-539): a rejection is logged and becomes a
resolution with undefined. -/
def applyCatch : SendOutcome → SendOutcome
  | SendOutcome.rejectedErr => SendOutcome.resolvedNone
  | o => o

/-- The promise body of send, before the trailing catch, with attemptsLeft
as the recursion budget. The retry branch (lines 497-509) awaits the full
recursive send, whose own catch has already swallowed any rejection. -/
def sendPromise (rd : Nat) (path : String) (wsOk : Bool) (sendErr : Nat → Bool)
    (codes : Nat → Nat) : Nat → Nat → Nat → SendRes
  | attempt, msgId, 0 =>
    if wsOk = false then ⟨msgId, SendOutcome.rejectedErr, sendGate path ++ [WsAct.logErr]⟩
    else if sendErr attempt = true then
      ⟨msgId + 1, SendOutcome.rejectedErr, sendGate path ++ [WsAct.wsSend msgId]⟩
    else if codes attempt = 200 then
      ⟨msgId + 1, SendOutcome.resolvedMsg 200, sendGate path ++ [WsAct.wsSend msgId]⟩
    else
      ⟨msgId + 1, SendOutcome.rejectedErr, sendGate path ++ [WsAct.wsSend msgId, WsAct.logErr]⟩
  | attempt, msgId, n + 1 =>
    if wsOk = false then ⟨msgId, SendOutcome.rejectedErr, sendGate path ++ [WsAct.logErr]⟩
    else if sendErr attempt = true then
      ⟨msgId + 1, SendOutcome.rejectedErr, sendGate path ++ [WsAct.wsSend msgId]⟩
    else if codes attempt = 200 then
      ⟨msgId + 1, SendOutcome.resolvedMsg 200, sendGate path ++ [WsAct.wsSend msgId]⟩
    else
      let inner := sendPromise rd path wsOk sendErr codes (attempt + 1) (msgId + 1) n
      ⟨inner.msgId, applyCatch inner.outcome,
        sendGate path ++ [WsAct.wsSend msgId, WsAct.waitDelay rd] ++ inner.trace ++
          (if inner.outcome = SendOutcome.rejectedErr then [WsAct.logErr] else [])⟩

/-- The full send: the promise body with the trailing catch applied. -/
def sendModelFull (rd : Nat) (path : String) (wsOk : Bool) (sendErr : Nat → Bool)
    (codes : Nat → Nat) (attempt msgId attemptsLeft : Nat) : SendRes :=
  let inner := sendPromise rd path wsOk sendErr codes attempt msgId attemptsLeft
  ⟨inner.msgId, applyCatch inner.outcome,
    inner.trace ++ (if inner.outcome = SendOutcome.rejectedErr then [WsAct.logErr] else [])⟩

/-- Subscriptions.subscribe (lines 544-560): a duplicate key returns
undefined without sending; otherwise it returns the send promise for
POST subscription/event-slash-key. -/
def subscribeModel (already : Bool) (rd : Nat) (sub : String) (wsOk : Bool)
    (sendErr : Nat → Bool) (codes : Nat → Nat) (msgId attempts : Nat) : SendRes :=
  if already then ⟨msgId, SendOutcome.resolvedNone, [WsAct.logErr]⟩
  else sendModelFull rd ("subscription/" ++ sub) wsOk sendErr codes 0 msgId attempts

/-- The messageIds carried by the wsSend actions of a trace, in order. -/
def sentIds (tr : List WsAct) : List Nat :=
  tr.filterMap (fun a =>
    match a with
    | WsAct.wsSend i => some i
    | _ => none)

/-- How many retry delays a trace contains. -/
def numWaits (tr : List WsAct) : Nat :=
  (tr.filter (fun a =>
    match a with
    | WsAct.waitDelay _ => true
    | _ => false)).length

/-- The number of attempts send performs for a given response oracle and
budget (no socket-level errors). -/
def attemptsUsed (codes : Nat → Nat) (attempt : Nat) : Nat → Nat
  | 0 => 1
  | n + 1 => if codes attempt = 200 then 1 else 1 + attemptsUsed codes (attempt + 1) n

theorem sentIds_gate (path : String) : sentIds (sendGate path) = [] := by
  unfold sendGate
  split <;> rfl

theorem numWaits_gate (path : String) : numWaits (sendGate path) = 0 := by
  unfold sendGate
  split <;> rfl

theorem waitDelay_not_mem_gate (path : String) (d : Nat) :
    WsAct.waitDelay d ∉ sendGate path := by
  unfold sendGate
  split <;> simp

theorem awaitHalted_mem_gate (path : String) :
    WsAct.awaitHalted ∈ sendGate path ↔ path ≠ "migrate" := by
  unfold sendGate
  split
  · next h => simp [h]
  · next h => simp [h]

theorem attemptsUsed_pos (codes : Nat → Nat) (attempt : Nat) :
    ∀ aL, 1 ≤ attemptsUsed codes attempt aL := by
  intro aL
  cases aL with
  | zero => simp [attemptsUsed]
  | succ n =>
    unfold attemptsUsed
    split <;> omega

theorem attemptsUsed_le (codes : Nat → Nat) :
    ∀ (aL attempt : Nat), attemptsUsed codes attempt aL ≤ aL + 1 := by
  intro aL
  induction aL with
  | zero => intro attempt; simp [attemptsUsed]
  | succ n ih =>
    intro attempt
    unfold attemptsUsed
    split
    · omega
    · have := ih (attempt + 1)
      omega

theorem range'_one (s : Nat) : List.range' s 1 = [s] := rfl

theorem sentIds_errTail (c : Prop) [Decidable c] :
    sentIds (if c then [WsAct.logErr] else []) = [] := by
  split <;> rfl

theorem numWaits_errTail (c : Prop) [Decidable c] :
    numWaits (if c then [WsAct.logErr] else []) = 0 := by
  split <;> rfl

theorem waitDelay_not_mem_errTail (c : Prop) [Decidable c] (d : Nat) :
    WsAct.waitDelay d ∉ (if c then [WsAct.logErr] else []) := by
  split <;> simp

theorem awaitHalted_not_mem_errTail (c : Prop) [Decidable c] :
    WsAct.awaitHalted ∉ (if c then [WsAct.logErr] else []) := by
  split <;> simp

theorem sentIds_append (l1 l2 : List WsAct) :
    sentIds (l1 ++ l2) = sentIds l1 ++ sentIds l2 := by
  simp [sentIds]

theorem numWaits_append (l1 l2 : List WsAct) :
    numWaits (l1 ++ l2) = numWaits l1 + numWaits l2 := by
  simp [numWaits]

theorem sentIds_sendOnly (a : Nat) : sentIds [WsAct.wsSend a] = [a] := rfl

theorem sentIds_sendLog (a : Nat) : sentIds [WsAct.wsSend a, WsAct.logErr] = [a] := rfl

theorem sentIds_sendWait (a b : Nat) :
    sentIds [WsAct.wsSend a, WsAct.waitDelay b] = [a] := rfl

theorem numWaits_sendWait (a b : Nat) :
    numWaits [WsAct.wsSend a, WsAct.waitDelay b] = 1 := rfl

theorem sendPromise_shape (rd : Nat) (path : String) (codes : Nat → Nat) :
    ∀ (aL attempt msgId : Nat),
      (sendPromise rd path true (fun _ => false) codes attempt msgId aL).msgId
          = msgId + attemptsUsed codes attempt aL ∧
      sentIds (sendPromise rd path true (fun _ => false) codes attempt msgId aL).trace
          = List.range' msgId (attemptsUsed codes attempt aL) ∧
      numWaits (sendPromise rd path true (fun _ => false) codes attempt msgId aL).trace
          = attemptsUsed codes attempt aL - 1 ∧
      (∀ d, WsAct.waitDelay d
          ∈ (sendPromise rd path true (fun _ => false) codes attempt msgId aL).trace → d = rd) ∧
      (WsAct.awaitHalted
          ∈ (sendPromise rd path true (fun _ => false) codes attempt msgId aL).trace
        ↔ path ≠ "migrate") := by
  intro aL
  induction aL with
  | zero =>
    intro attempt msgId
    by_cases h200 : codes attempt = 200
    · simp only [sendPromise, attemptsUsed, h200, Bool.false_eq_true, if_false, if_true,
        if_neg (by simp : ¬(true = false))]
      refine ⟨by trivial, ?_, ?_, ?_, ?_⟩
      · rw [sentIds_append, sentIds_gate, sentIds_sendOnly, range'_one, List.nil_append]
      · rw [numWaits_append, numWaits_gate]
        rfl
      · intro d hd
        rcases List.mem_append.mp hd with h | h
        · exact absurd h (waitDelay_not_mem_gate path d)
        · simp at h
      · simp [awaitHalted_mem_gate]
    · simp only [sendPromise, attemptsUsed, h200, Bool.false_eq_true, if_false,
        if_neg (by simp : ¬(true = false))]
      refine ⟨by trivial, ?_, ?_, ?_, ?_⟩
      · rw [sentIds_append, sentIds_gate, sentIds_sendLog, range'_one, List.nil_append]
      · rw [numWaits_append, numWaits_gate]
        rfl
      · intro d hd
        rcases List.mem_append.mp hd with h | h
        · exact absurd h (waitDelay_not_mem_gate path d)
        · simp at h
      · simp [awaitHalted_mem_gate]
  | succ n ih =>
    intro attempt msgId
    by_cases h200 : codes attempt = 200
    · simp only [sendPromise, attemptsUsed, h200, if_true,
        if_neg (by simp : ¬(true = false)), Bool.false_eq_true, if_false]
      refine ⟨by trivial, ?_, ?_, ?_, ?_⟩
      · rw [sentIds_append, sentIds_gate, sentIds_sendOnly, range'_one, List.nil_append]
      · rw [numWaits_append, numWaits_gate]
        rfl
      · intro d hd
        rcases List.mem_append.mp hd with h | h
        · exact absurd h (waitDelay_not_mem_gate path d)
        · simp at h
      · simp [awaitHalted_mem_gate]
    · obtain ⟨ihm, ihs, ihw, ihd, ihh⟩ := ih (attempt + 1) (msgId + 1)
      have hused := attemptsUsed_pos codes (attempt + 1) n
      simp only [sendPromise, attemptsUsed, h200, Bool.false_eq_true, if_false,
        if_neg (by simp : ¬(true = false))]
      refine ⟨?_, ?_, ?_, ?_, ?_⟩
      · show (sendPromise rd path true (fun _ => false) codes (attempt + 1) (msgId + 1) n).msgId
            = msgId + (1 + attemptsUsed codes (attempt + 1) n)
        rw [ihm]
        omega
      · rw [sentIds_append, sentIds_append, sentIds_append, sentIds_gate, sentIds_sendWait,
          sentIds_errTail, ihs, List.append_nil, List.nil_append]
        rw [show (1 + attemptsUsed codes (attempt + 1) n)
            = attemptsUsed codes (attempt + 1) n + 1 by omega]
        rw [List.range'_succ, List.singleton_append]
      · rw [numWaits_append, numWaits_append, numWaits_append, numWaits_gate,
          numWaits_sendWait, numWaits_errTail, ihw]
        omega
      · intro d hd
        rcases List.mem_append.mp hd with hd2 | h
        · rcases List.mem_append.mp hd2 with hd3 | h
          · rcases List.mem_append.mp hd3 with h | h
            · exact absurd h (waitDelay_not_mem_gate path d)
            · simp only [List.mem_cons, List.mem_singleton, WsAct.waitDelay.injEq,
                List.not_mem_nil, or_false] at h
              rcases h with h | h
              · exact absurd h (by simp)
              · exact h
          · exact ihd d h
        · exact absurd h (waitDelay_not_mem_errTail _ d)
      · constructor
        · intro hmem
          rcases List.mem_append.mp hmem with hd2 | h
          · rcases List.mem_append.mp hd2 with hd3 | h
            · rcases List.mem_append.mp hd3 with h | h
              · exact (awaitHalted_mem_gate path).mp h
              · simp at h
            · exact ihh.mp h
          · exact absurd h (awaitHalted_not_mem_errTail _)
        · intro hne
          exact List.mem_append.mpr (Or.inl (List.mem_append.mpr (Or.inl
            (List.mem_append.mpr (Or.inl ((awaitHalted_mem_gate path).mpr hne))))))

theorem sendPromise_allFail (rd : Nat) (path : String) (codes : Nat → Nat) :
    ∀ (aL attempt msgId : Nat), (∀ i, attempt ≤ i → i ≤ attempt + aL → codes i ≠ 200) →
      (sendPromise rd path true (fun _ => false) codes attempt msgId aL).outcome
          = SendOutcome.rejectedErr ∨
      (sendPromise rd path true (fun _ => false) codes attempt msgId aL).outcome
          = SendOutcome.resolvedNone := by
  intro aL
  induction aL with
  | zero =>
    intro attempt msgId hfail
    simp [sendPromise, hfail attempt (le_refl _) (by omega)]
  | succ n ih =>
    intro attempt msgId hfail
    simp only [sendPromise, hfail attempt (le_refl _) (by omega), Bool.false_eq_true, if_false,
      if_neg (by simp : ¬(true = false))]
    rcases ih (attempt + 1) (msgId + 1) (fun i h1 h2 => hfail i (by omega) (by omega))
      with h | h <;> simp [applyCatch, h]

theorem attemptsUsed_allFail (codes : Nat → Nat) :
    ∀ (aL attempt : Nat), (∀ i, attempt ≤ i → i ≤ attempt + aL → codes i ≠ 200) →
      attemptsUsed codes attempt aL = aL + 1 := by
  intro aL
  induction aL with
  | zero => intro attempt _; rfl
  | succ n ih =>
    intro attempt hfail
    unfold attemptsUsed
    rw [if_neg (hfail attempt (le_refl _) (by omega))]
    rw [ih (attempt + 1) (fun i h1 h2 => hfail i (by omega) (by omega))]
    omega

theorem applyCatch_ne_rejected (o : SendOutcome) : applyCatch o ≠ SendOutcome.rejectedErr := by
  cases o <;> simp [applyCatch]

/-- C4 (amended): each send allocates a fresh messageId per attempt (the
ids sent are the consecutive counter values, so all distinct), awaits the
halted gate exactly when the path is not migrate, retries with
webSocketRequestRetryDelay between attempts while the correlated response
has a responseCode other than 200 (the code compares against 200, not
against the 2xx class), performs at most webSocketRequestAttempts retries
beyond the first attempt, and when every response in the budget is non-200
it fails fatally: the rejection is logged and surfaces as a resolution
with undefined after exactly webSocketRequestAttempts + 1 attempts. -/
theorem send_semantics (rd : Nat) (path : String) (codes : Nat → Nat) (msgId aL : Nat) :
    sentIds (sendModelFull rd path true (fun _ => false) codes 0 msgId aL).trace
        = List.range' msgId (attemptsUsed codes 0 aL) ∧
    (sentIds (sendModelFull rd path true (fun _ => false) codes 0 msgId aL).trace).Nodup ∧
    1 ≤ attemptsUsed codes 0 aL ∧ attemptsUsed codes 0 aL ≤ aL + 1 ∧
    (WsAct.awaitHalted ∈ (sendModelFull rd path true (fun _ => false) codes 0 msgId aL).trace
      ↔ path ≠ "migrate") ∧
    numWaits (sendModelFull rd path true (fun _ => false) codes 0 msgId aL).trace
        = attemptsUsed codes 0 aL - 1 ∧
    (∀ d, WsAct.waitDelay d
        ∈ (sendModelFull rd path true (fun _ => false) codes 0 msgId aL).trace → d = rd) ∧
    ((∀ i, i ≤ aL → codes i ≠ 200) →
      (sendModelFull rd path true (fun _ => false) codes 0 msgId aL).outcome
          = SendOutcome.resolvedNone ∧
      attemptsUsed codes 0 aL = aL + 1) := by
  obtain ⟨hm, hs, hw, hd, hh⟩ := sendPromise_shape rd path codes aL 0 msgId
  have hsfull : sentIds (sendModelFull rd path true (fun _ => false) codes 0 msgId aL).trace
      = List.range' msgId (attemptsUsed codes 0 aL) := by
    show sentIds ((sendPromise rd path true (fun _ => false) codes 0 msgId aL).trace ++ _)
        = List.range' msgId (attemptsUsed codes 0 aL)
    rw [sentIds_append, hs, sentIds_errTail, List.append_nil]
  refine ⟨hsfull, ?_, attemptsUsed_pos codes 0 aL, attemptsUsed_le codes aL 0, ?_, ?_, ?_, ?_⟩
  · rw [hsfull]
    exact List.nodup_range' msgId (attemptsUsed codes 0 aL)
  · simp only [sendModelFull, List.mem_append]
    constructor
    · intro h
      rcases h with h | h
      · exact hh.mp h
      · exact absurd h (awaitHalted_not_mem_errTail _)
    · intro h
      exact Or.inl (hh.mpr h)
  · show numWaits ((sendPromise rd path true (fun _ => false) codes 0 msgId aL).trace ++ _)
        = attemptsUsed codes 0 aL - 1
    rw [numWaits_append, hw, numWaits_errTail]
    omega
  · intro d hdm
    simp only [sendModelFull, List.mem_append] at hdm
    rcases hdm with h | h
    · exact hd d h
    · exact absurd h (waitDelay_not_mem_errTail _ d)
  · intro hfail
    constructor
    · simp only [sendModelFull]
      rcases sendPromise_allFail rd path codes aL 0 msgId
        (fun i _ h2 => hfail i (by omega)) with h | h <;> simp [applyCatch, h]
    · exact attemptsUsed_allFail codes aL 0 (fun i _ h2 => hfail i (by omega))

/-- C4 counterexample: with every correlated response carrying code 204, a
2xx code, send as written still retries (three delays for a budget of 3)
and ends in the swallowed fatal failure, because the code retries on every
responseCode other than exactly 200 - refuting the claim that retries
happen when the response is non-2xx. -/
theorem send_2xx_retried_counterexample :
    ((200 : Nat) ≤ 204 ∧ (204 : Nat) < 300) ∧
    numWaits (sendModelFull 3000 "subscription/me-group-create/1" true (fun _ => false)
      (fun _ => 204) 0 1 3).trace = 3 ∧
    (sendModelFull 3000 "subscription/me-group-create/1" true (fun _ => false)
      (fun _ => 204) 0 1 3).outcome = SendOutcome.resolvedNone := by
  refine ⟨by decide, by decide, by decide⟩

/-- C10: the promise returned by send (and by subscribe, which returns it)
never rejects to its caller: whatever the oracle does - missing socket or
token, a socket-level send error on any attempt, or every response non-200
until the retry budget is exhausted - the trailing catch turns the
rejection into a resolution with undefined. -/
theorem send_never_rejects (rd : Nat) (path sub : String) (wsOk already : Bool)
    (sendErr : Nat → Bool) (codes : Nat → Nat) (attempt msgId aL : Nat) :
    (sendModelFull rd path wsOk sendErr codes attempt msgId aL).outcome
        ≠ SendOutcome.rejectedErr ∧
    (subscribeModel already rd sub wsOk sendErr codes msgId aL).outcome
        ≠ SendOutcome.rejectedErr ∧
    (wsOk = false →
      (sendModelFull rd path wsOk sendErr codes attempt msgId aL).outcome
          = SendOutcome.resolvedNone) ∧
    (wsOk = true → sendErr attempt = true →
      (sendModelFull rd path wsOk sendErr codes attempt msgId aL).outcome
          = SendOutcome.resolvedNone) ∧
    ((∀ i, sendErr i = false) → (∀ i, codes i ≠ 200) → wsOk = true →
      (sendModelFull rd path wsOk sendErr codes attempt msgId aL).outcome
          = SendOutcome.resolvedNone) := by
  refine ⟨applyCatch_ne_rejected _, ?_, ?_, ?_, ?_⟩
  · cases already with
    | true => simp [subscribeModel]
    | false =>
      simp only [subscribeModel, Bool.false_eq_true, if_false]
      exact applyCatch_ne_rejected _
  · intro h
    subst h
    cases aL <;> simp [sendModelFull, sendPromise, applyCatch]
  · intro h1 h2
    subst h1
    cases aL <;> simp [sendModelFull, sendPromise, h2, applyCatch]
  · intro hse hc hw
    subst hw
    have hfe : sendErr = fun _ => false := funext hse
    subst hfe
    rcases sendPromise_allFail rd path codes aL attempt msgId (fun i _ _ => hc i) with h | h <;>
      simp [sendModelFull, applyCatch, h]

/-! ## Group heartbeat tracking (Group.handleHeartbeat, src/src/Group/Group.ts
lines 273-305, with manageServerConnection lines 310-339, addServer lines
355-382, ensureServer lines 417-429, and Server connect/disconnect from
src/src/Server/Server.ts)

The Group keeps one missedHeartbeats counter and one keepAlive timer. The
model is a state machine over the group's servers map with an oracle for
the getServerInfo API call used when a server must be re-added (none means
the call threw, so addServer returns undefined) and for the outcome of
Server.connect (whether the console socket reached open; a pending open,
which would suspend the awaiting caller, is not modelled). A timer tick is
a separate transition, enabled while keepAlive is armed. addServer calls
the full manageServerConnection, whose ensureServer then finds the freshly
inserted server, so the model calls manageCore there directly. -/

/-- Console-connection status of a managed server. -/
inductive ConnStatus
  | disconnected
  | connecting
  | connected
deriving DecidableEq, Repr

/-- The modelled fields of a Server manager. -/
structure ServerHB where
  fleet : String
  status : ConnStatus
  hasConnection : Bool
  players : Nat
deriving DecidableEq, Repr

/-- The modelled fields of a ServerInfo status message. -/
structure HBInfo where
  id : Nat
  isOnline : Bool
  onlinePlayers : Nat
  fleet : String
deriving DecidableEq, Repr

/-- The configuration fields the heartbeat machinery reads. -/
structure HBConfig where
  serverHeartbeatInterval : Nat
  maxMissedServerHeartbeats : Nat
  supportedServerFleets : List String
deriving DecidableEq, Repr

/-- The modelled fields of a Group manager. -/
structure GroupHBState where
  permissions : List String
  missedHeartbeats : Nat
  keepAlive : Option Nat
  servers : List (Nat × ServerHB)
deriving DecidableEq, Repr

/-- Observable actions of the heartbeat machinery. -/
inductive HBAct
  | resetMissed
  | clearTimer
  | armTimer (interval : Nat)
  | callManage
  | incMissed
  | serverConnect (sid : Nat)
  | serverDisconnect (sid : Nat)
  | serverUpdate (sid : Nat)
  | serverAdd (sid : Nat)
  | hbLogErr
deriving DecidableEq, Repr

/-- Lookup in the group's servers map. -/
def lookupServer : List (Nat × ServerHB) → Nat → Option ServerHB
  | [], _ => none
  | (i, sv) :: rest, j => if i = j then some sv else lookupServer rest j

/-- In-place mutation of a managed server. -/
def setServer : List (Nat × ServerHB) → Nat → ServerHB → List (Nat × ServerHB)
  | [], _, _ => []
  | (i, sv) :: rest, j, sv' =>
    if i = j then (i, sv') :: setServer rest j sv' else (i, sv) :: setServer rest j sv'

/-- Server.disconnect (Server.ts lines 282-289): a no-op without a
connection, else dispose the connection and become disconnected. -/
def serverDisconnectOp (sv : ServerHB) : ServerHB :=
  if sv.hasConnection then
    { sv with status := ConnStatus.disconnected, hasConnection := false }
  else sv

/-- Server.connect (Server.ts lines 183-277): refused while a connection
exists; on refused details or a pre-open failure the state is unchanged
(the rejection is caught and logged by the caller); on a successful open
the server is connected. -/
def serverConnectOp (sv : ServerHB) (openOk : Bool) : ServerHB :=
  if sv.hasConnection then sv
  else if openOk then { sv with status := ConnStatus.connected, hasConnection := true }
  else sv

/-- Server.update (Server.ts lines 310-318) on the modelled fields. -/
def serverUpdateOp (sv : ServerHB) (hb : HBInfo) : ServerHB :=
  { sv with fleet := hb.fleet, players := hb.onlinePlayers }

/-- The body of manageServerConnection once the server is resolved (Group.ts
lines 319-338): connect a disconnected server when console permission,
supported fleet, online and players are all present; clear the heartbeat
timer and disconnect a non-disconnected server when permission or online
is missing; always update. -/
def manageCore (cfg : HBConfig) (st : GroupHBState) (hb : HBInfo) (co : Bool) :
    GroupHBState × List HBAct :=
  match lookupServer st.servers hb.id with
  | none => (st, [HBAct.hbLogErr])
  | some sv =>
    let mayConnect := st.permissions.contains "Console"
      && cfg.supportedServerFleets.contains sv.fleet
    if sv.status = ConnStatus.disconnected ∧ mayConnect = true ∧ hb.isOnline = true
        ∧ 0 < hb.onlinePlayers then
      ({ st with servers := setServer st.servers hb.id (serverUpdateOp (serverConnectOp sv co) hb) },
        [HBAct.serverConnect hb.id, HBAct.serverUpdate hb.id])
    else if sv.status ≠ ConnStatus.disconnected ∧ (mayConnect = false ∨ hb.isOnline = false) then
      ({ st with
          keepAlive := none
          servers := setServer st.servers hb.id (serverUpdateOp (serverDisconnectOp sv) hb) },
        [HBAct.clearTimer, HBAct.serverDisconnect hb.id, HBAct.serverUpdate hb.id])
    else
      ({ st with servers := setServer st.servers hb.id (serverUpdateOp sv hb) },
        [HBAct.serverUpdate hb.id])

/-- Group.addServer (lines 355-382): a duplicate or a failed getServerInfo
is caught and yields undefined; otherwise the new Server starts
disconnected, is inserted, and manageServerConnection runs on the fetched
info (its ensureServer finds the server just inserted). -/
def addServerModel (cfg : HBConfig) (st : GroupHBState) (sid : Nat) (api : Option HBInfo)
    (co : Bool) : GroupHBState × Option Nat × List HBAct :=
  if (lookupServer st.servers sid).isSome then (st, none, [HBAct.hbLogErr])
  else
    match api with
    | none => (st, none, [HBAct.hbLogErr])
    | some info =>
      let st1 : GroupHBState :=
        { st with servers := st.servers
            ++ [(sid, ⟨info.fleet, ConnStatus.disconnected, false, info.onlinePlayers⟩)] }
      let m := manageCore cfg st1 info co
      (m.1, some sid, HBAct.serverAdd sid :: m.2)

/-- Group.ensureServer (lines 417-429): the managed server, or an attempt
to re-add it. -/
def ensureServerModel (cfg : HBConfig) (st : GroupHBState) (sid : Nat) (api : Option HBInfo)
    (co : Bool) : GroupHBState × Option Nat × List HBAct :=
  if (lookupServer st.servers sid).isSome then (st, some sid, [])
  else addServerModel cfg st sid api co

/-- Group.manageServerConnection (lines 310-339): resolve the server via
ensureServer (error-return when that fails), then run the core logic. -/
def manageSCModel (cfg : HBConfig) (st : GroupHBState) (hb : HBInfo) (api : Option HBInfo)
    (co : Bool) : GroupHBState × List HBAct :=
  let r := ensureServerModel cfg st hb.id api co
  match r.2.1 with
  | none => (r.1, r.2.2 ++ [HBAct.hbLogErr])
  | some _ =>
    let m := manageCore cfg r.1 hb co
    (m.1, r.2.2 ++ m.2)

/-- Group.handleHeartbeat (lines 273-305): when the status is online, reset
missedHeartbeats, clear the existing keepAlive timer, resolve the server
(returning early on failure), arm a fresh fixed-period timer at
serverHeartbeatInterval, and finally forward the status into
manageServerConnection; when offline, forward directly. -/
def handleHeartbeatModel (cfg : HBConfig) (st : GroupHBState) (hb : HBInfo)
    (api : Option HBInfo) (co : Bool) : GroupHBState × List HBAct :=
  if hb.isOnline then
    let st1 : GroupHBState := { st with missedHeartbeats := 0, keepAlive := none }
    let r := ensureServerModel cfg st1 hb.id api co
    match r.2.1 with
    | none => (r.1, [HBAct.resetMissed, HBAct.clearTimer] ++ r.2.2 ++ [HBAct.hbLogErr])
    | some _ =>
      let st3 : GroupHBState := { r.1 with keepAlive := some hb.id }
      let m := manageSCModel cfg st3 hb api co
      (m.1, [HBAct.resetMissed, HBAct.clearTimer] ++ r.2.2
        ++ [HBAct.armTimer cfg.serverHeartbeatInterval, HBAct.callManage] ++ m.2)
  else
    let m := manageSCModel cfg st hb api co
    (m.1, HBAct.callManage :: m.2)

/-- One tick of the keepAlive interval (the closure armed at lines
286-301): increment missedHeartbeats and, once it reaches
maxMissedServerHeartbeats, disconnect the watched server's console
connection and clear the timer. -/
def tickModel (cfg : HBConfig) (st : GroupHBState) : GroupHBState × List HBAct :=
  match st.keepAlive with
  | none => (st, [])
  | some sid =>
    let m := st.missedHeartbeats + 1
    if cfg.maxMissedServerHeartbeats ≤ m then
      ({ st with
          missedHeartbeats := m
          keepAlive := none
          servers :=
            match lookupServer st.servers sid with
            | some sv => setServer st.servers sid (serverDisconnectOp sv)
            | none => st.servers },
        [HBAct.incMissed, HBAct.serverDisconnect sid, HBAct.clearTimer])
    else ({ st with missedHeartbeats := m }, [HBAct.incMissed])

/-- Iterated silent ticks. -/
def ticksIter (cfg : HBConfig) (n : Nat) (st : GroupHBState) : GroupHBState :=
  (fun s => (tickModel cfg s).1)^[n] st

/-- The scenario configuration of the claim: maxMissedServerHeartbeats 3
and serverHeartbeatInterval 20000, with the default fleets. -/
def hbScenarioConfig : HBConfig := ⟨20000, 3, ["att-release", "att-quest"]⟩

/-- A group with Console permission managing server 7 with an open console
connection. -/
def hbScenarioState : GroupHBState :=
  ⟨["Console"], 0, none, [(7, ⟨"att-release", ConnStatus.connected, true, 1⟩)]⟩

/-- An online heartbeat for server 7. -/
def hbScenarioBeat : HBInfo := ⟨7, true, 1, "att-release"⟩

/-- The state after the heartbeat and three silent ticks: connection
closed, timer cleared. -/
def hbScenarioEnd : GroupHBState :=
  ⟨["Console"], 3, none, [(7, ⟨"att-release", ConnStatus.disconnected, false, 1⟩)]⟩

theorem lookupServer_setServer {l : List (Nat × ServerHB)} {sid : Nat} {sv sv' : ServerHB}
    (h : lookupServer l sid = some sv) :
    lookupServer (setServer l sid sv') sid = some sv' := by
  induction l with
  | nil => simp [lookupServer] at h
  | cons q rest ih =>
    obtain ⟨i, u⟩ := q
    simp only [lookupServer, setServer] at h ⊢
    by_cases hij : i = sid
    · simp [lookupServer, hij]
    · rw [if_neg hij] at h
      simp [lookupServer, setServer, hij, ih h]

theorem manageCore_missed (cfg : HBConfig) (st : GroupHBState) (hb : HBInfo) (co : Bool) :
    (manageCore cfg st hb co).1.missedHeartbeats = st.missedHeartbeats := by
  unfold manageCore
  split
  · rfl
  · dsimp only
    split
    · rfl
    · split
      · rfl
      · rfl

theorem addServer_missed (cfg : HBConfig) (st : GroupHBState) (sid : Nat)
    (api : Option HBInfo) (co : Bool) :
    (addServerModel cfg st sid api co).1.missedHeartbeats = st.missedHeartbeats := by
  unfold addServerModel
  split
  · rfl
  · split
    · rfl
    · next info =>
      show (manageCore cfg _ info co).1.missedHeartbeats = st.missedHeartbeats
      rw [manageCore_missed]

theorem ensure_missed (cfg : HBConfig) (st : GroupHBState) (sid : Nat)
    (api : Option HBInfo) (co : Bool) :
    (ensureServerModel cfg st sid api co).1.missedHeartbeats = st.missedHeartbeats := by
  unfold ensureServerModel
  split
  · rfl
  · exact addServer_missed cfg st sid api co

theorem manageSC_missed (cfg : HBConfig) (st : GroupHBState) (hb : HBInfo)
    (api : Option HBInfo) (co : Bool) :
    (manageSCModel cfg st hb api co).1.missedHeartbeats = st.missedHeartbeats := by
  unfold manageSCModel
  dsimp only
  split
  · exact ensure_missed cfg st hb.id api co
  · show (manageCore cfg (ensureServerModel cfg st hb.id api co).1 hb co).1.missedHeartbeats
        = st.missedHeartbeats
    rw [manageCore_missed]
    exact ensure_missed cfg st hb.id api co

theorem ensureServer_routes (cfg : HBConfig) (st : GroupHBState) (sid : Nat)
    (api : Option HBInfo) (co : Bool)
    (h : (lookupServer st.servers sid).isSome = true ∨ api.isSome = true) :
    (ensureServerModel cfg st sid api co).2.1 = some sid := by
  unfold ensureServerModel
  by_cases hl : (lookupServer st.servers sid).isSome = true
  · rw [if_pos hl]
  · rw [if_neg hl]
    unfold addServerModel
    rw [if_neg hl]
    rcases h with h | h
    · exact absurd h hl
    · cases api with
      | none => simp at h
      | some info => rfl

/-- C8 (amended): for every heartbeat handled by a Group manager whose
Server manager resolves (it is already managed, or re-adding it via the
API succeeds): if the status is online, missedHeartbeats is reset to 0 and
the existing heartbeat timer is cleared before a fixed-period timer at
serverHeartbeatInterval is armed and the status is forwarded into
manageServerConnection; when the online path fails to resolve the server,
the handler returns early after clearing the timer, skipping
manageServerConnection (the correction). An offline status is always
forwarded. Each timer tick increments missedHeartbeats and, when it
reaches maxMissedServerHeartbeats, disconnects the watched server's
console connection and clears the timer. With maxMissedServerHeartbeats 3
and serverHeartbeatInterval 20000, one online heartbeat followed by T ms
of silence with T at least 60000 (hence at least 3 ticks) leaves the
console connection closed. -/
theorem heartbeat_semantics :
    (∀ (cfg : HBConfig) (st : GroupHBState) (hb : HBInfo) (api : Option HBInfo) (co : Bool),
      hb.isOnline = true →
      ((lookupServer st.servers hb.id).isSome = true ∨ api.isSome = true) →
      (handleHeartbeatModel cfg st hb api co).1.missedHeartbeats = 0 ∧
      (∃ tl, (handleHeartbeatModel cfg st hb api co).2
          = HBAct.resetMissed :: HBAct.clearTimer :: tl) ∧
      HBAct.armTimer cfg.serverHeartbeatInterval ∈ (handleHeartbeatModel cfg st hb api co).2 ∧
      HBAct.callManage ∈ (handleHeartbeatModel cfg st hb api co).2) ∧
    (∀ (cfg : HBConfig) (st : GroupHBState) (hb : HBInfo) (api : Option HBInfo) (co : Bool),
      hb.isOnline = false →
      ∃ tl, (handleHeartbeatModel cfg st hb api co).2 = HBAct.callManage :: tl) ∧
    (∀ (cfg : HBConfig) (st : GroupHBState) (sid : Nat), st.keepAlive = some sid →
      (tickModel cfg st).1.missedHeartbeats = st.missedHeartbeats + 1 ∧
      (cfg.maxMissedServerHeartbeats ≤ st.missedHeartbeats + 1 →
        (tickModel cfg st).1.keepAlive = none ∧
        HBAct.serverDisconnect sid ∈ (tickModel cfg st).2 ∧
        (∀ sv, lookupServer st.servers sid = some sv →
          lookupServer (tickModel cfg st).1.servers sid = some (serverDisconnectOp sv))) ∧
      (st.missedHeartbeats + 1 < cfg.maxMissedServerHeartbeats →
        (tickModel cfg st).1.keepAlive = some sid ∧
        (tickModel cfg st).1.servers = st.servers)) ∧
    (∀ T, 60000 ≤ T →
      3 ≤ T / 20000 ∧
      ticksIter hbScenarioConfig (T / 20000)
          (handleHeartbeatModel hbScenarioConfig hbScenarioState hbScenarioBeat none true).1
        = hbScenarioEnd) := by
  refine ⟨?_, ?_, ?_, ?_⟩
  · intro cfg st hb api co hon hres
    have hroute : (ensureServerModel cfg
        { st with missedHeartbeats := 0, keepAlive := none } hb.id api co).2.1 = some hb.id :=
      ensureServer_routes cfg _ hb.id api co hres
    unfold handleHeartbeatModel
    rw [hon]
    rw [if_pos (rfl : true = true)]
    dsimp only
    rw [hroute]
    dsimp only
    refine ⟨?_, ⟨_, rfl⟩, ?_, ?_⟩
    · rw [manageSC_missed]
      show (ensureServerModel cfg { st with missedHeartbeats := 0, keepAlive := none }
        hb.id api co).1.missedHeartbeats = 0
      rw [ensure_missed]
    · simp
    · simp
  · intro cfg st hb api co hoff
    unfold handleHeartbeatModel
    rw [hoff]
    rw [if_neg (by simp : ¬(false = true))]
    exact ⟨_, rfl⟩
  · intro cfg st sid hka
    unfold tickModel
    rw [hka]
    dsimp only
    by_cases hth : cfg.maxMissedServerHeartbeats ≤ st.missedHeartbeats + 1
    · rw [if_pos hth]
      refine ⟨rfl, ?_, ?_⟩
      · intro _
        refine ⟨rfl, by simp, ?_⟩
        intro sv hsv
        show lookupServer (match lookupServer st.servers sid with
          | some sv => setServer st.servers sid (serverDisconnectOp sv)
          | none => st.servers) sid = some (serverDisconnectOp sv)
        rw [hsv]
        exact lookupServer_setServer hsv
      · intro hlt
        omega
    · rw [if_neg hth]
      refine ⟨rfl, ?_, ?_⟩
      · intro hge
        exact absurd hge hth
      · intro _
        exact ⟨rfl, rfl⟩
  · intro T hT
    have h3 : 3 ≤ T / 20000 :=
      (Nat.le_div_iff_mul_le (by decide : 0 < 20000)).mpr (by omega)
    refine ⟨h3, ?_⟩
    obtain ⟨k, hk⟩ : ∃ k, T / 20000 = k + 3 := ⟨T / 20000 - 3, by omega⟩
    rw [hk]
    unfold ticksIter
    rw [Function.iterate_add_apply]
    have h3eval : (fun s => (tickModel hbScenarioConfig s).1)^[3]
        (handleHeartbeatModel hbScenarioConfig hbScenarioState hbScenarioBeat none true).1
        = hbScenarioEnd := by decide
    rw [h3eval]
    exact Function.iterate_fixed (by decide) k

/-- C8 counterexample: with no managed servers and a failing getServerInfo,
an online heartbeat clears the timer but neither re-arms it nor forwards
the status into manageServerConnection, contradicting the unqualified
regardless-of-the-online-flag forwarding (with the same state and API
outcome, an offline heartbeat would be forwarded). -/
theorem heartbeat_unresolved_counterexample :
    hbScenarioBeat.isOnline = true ∧
    HBAct.callManage ∉
      (handleHeartbeatModel hbScenarioConfig ⟨["Console"], 0, none, []⟩
        hbScenarioBeat none true).2 ∧
    HBAct.armTimer 20000 ∉
      (handleHeartbeatModel hbScenarioConfig ⟨["Console"], 0, none, []⟩
        hbScenarioBeat none true).2 ∧
    (handleHeartbeatModel hbScenarioConfig ⟨["Console"], 0, none, []⟩
        hbScenarioBeat none true).1.keepAlive = none := by
  refine ⟨rfl, by decide, by decide, by decide⟩

end AttClient
